import Mathlib

/-!
Verification of the HTTP/1.1 framing engine (request parser, header
container, response writer, per-connection driver) of the go-http-server
repository, as a shallow embedding over byte strings.

Go byte strings (`[]byte` / `string`) are modelled as `List Nat` of byte
values; all data relevant to the claims is 7-bit ASCII, and the
byte-level helpers (`toLowerB`, `trimSpace`, `fields`) implement the
ASCII behaviour of their Go counterparts (`strings.ToLower`,
`strings.TrimSpace`, `bytes.Fields`), which coincides with Go on ASCII
input.  The Go `map[string]string` header container is modelled as an
association list whose update operations mirror map semantics (at most
one live entry per key along any API-reachable value).
-/

/-- A Go byte string (`[]byte` or `string`), one `Nat` per byte. -/
abbrev ByteStr := List Nat

/-- Byte string of an ASCII Lean string literal (used for concrete inputs). -/
def asciiOf (s : String) : ByteStr := s.data.map Char.toNat

/-- ASCII space/tab test, the byte set of Go `strings.Trim(s, " \t")`. -/
def isSpaceTabB (c : Nat) : Bool := c == 32 || c == 9

/-- ASCII whitespace, the cutset of Go `strings.TrimSpace` / `bytes.Fields`
on ASCII input: space, \t, \n, \v, \f, \r. -/
def isSpaceB (c : Nat) : Bool :=
  c == 32 || c == 9 || c == 10 || c == 11 || c == 12 || c == 13

/-- Go `strings.Trim(s, " \t")`. -/
def trimSpaceTab (s : ByteStr) : ByteStr :=
  ((s.dropWhile isSpaceTabB).reverse.dropWhile isSpaceTabB).reverse

/-- Go `strings.TrimSpace` (ASCII). -/
def trimSpace (s : ByteStr) : ByteStr :=
  ((s.dropWhile isSpaceB).reverse.dropWhile isSpaceB).reverse

/-- Go `strings.ToLower` (ASCII): map A-Z to a-z, leave the rest. -/
def toLowerB (s : ByteStr) : ByteStr :=
  s.map (fun c => if 65 ≤ c ∧ c ≤ 90 then c + 32 else c)

/-- Go `bytes.Index(s, []byte("\r\n"))`: index of the first CRLF, if any. -/
def findCRLF : ByteStr → Option Nat
  | [] => none
  | c :: rest =>
    if c = 13 ∧ rest.head? = some 10 then some 0
    else (findCRLF rest).map (· + 1)

/-- Go `bytes.IndexByte(s, b)`. -/
def idxOfByte (b : Nat) : ByteStr → Option Nat
  | [] => none
  | c :: rest => if c = b then some 0 else (idxOfByte b rest).map (· + 1)

/-- Go `bytes.Fields` (ASCII): split on runs of whitespace. -/
def fieldsAux : ByteStr → ByteStr → List ByteStr
  | [], acc => if acc = [] then [] else [acc.reverse]
  | c :: rest, acc =>
    if isSpaceB c then
      if acc = [] then fieldsAux rest [] else acc.reverse :: fieldsAux rest []
    else fieldsAux rest (c :: acc)

def fields (s : ByteStr) : List ByteStr := fieldsAux s []

/-- Go `bytes.Split(s, [b])` / `strings.SplitSeq(s, ",")` for a one-byte
separator: the list of separated parts (never empty). -/
def splitOnByte (b : Nat) : ByteStr → List ByteStr
  | [] => [[]]
  | c :: rest =>
    let r := splitOnByte b rest
    if c = b then [] :: r else (c :: r.headD []) :: r.tail

/-- Go `strings.HasPrefix` on byte strings. -/
def isPrefixB : ByteStr → ByteStr → Bool
  | [], _ => true
  | _ :: _, [] => false
  | a :: as, b :: bs2 => a == b && isPrefixB as bs2

/-- Go `strings.Contains(s, pat)`. -/
def containsSeq (s pat : ByteStr) : Bool :=
  isPrefixB pat s ||
    match s with
    | [] => false
    | _ :: t => containsSeq t pat

/-- Digit run to value, as in `strconv.ParseInt`'s base-10 accumulation. -/
def digitsToNat (ds : ByteStr) : Nat := ds.foldl (fun a c => a * 10 + (c - 48)) 0

/-- Go `strconv.ParseInt(s, 10, 64)`: optional sign, one or more ASCII
digits, nothing else, result within the signed-64-bit range; `none`
models a non-nil error. -/
def parseInt64 (s : ByteStr) : Option Int :=
  let signed : Bool × ByteStr :=
    match s with
    | 43 :: r => (false, r)
    | 45 :: r => (true, r)
    | r => (false, r)
  let neg := signed.1
  let ds := signed.2
  if ds = [] then none
  else if ds.all (fun c => 48 ≤ c ∧ c ≤ 57) then
    let v : Int := (digitsToNat ds : Nat)
    let i := if neg then -v else v
    if i < -(2 ^ 63) ∨ 2 ^ 63 - 1 < i then none else some i
  else none

/-- Decimal digits of `n`, as `strconv.Itoa` / `fmt` `%d` for a `Nat`. -/
def natToDec (n : Nat) : ByteStr := (Nat.toDigits 10 n).map Char.toNat

/-- `fmt` `%d` for a Go int. -/
def intToDec (i : Int) : ByteStr :=
  if i < 0 then 45 :: natToDec i.natAbs else natToDec i.toNat

/-- The HTTP token byte class of the headers package's `allowed` table:
digits, letters, and the bytes of `!#$%&`, apostrophe, `*+-.^_`,
backquote, `|~`. -/
def isTokenByte (c : Nat) : Bool :=
  (48 ≤ c && c ≤ 57) || (65 ≤ c && c ≤ 90) || (97 ≤ c && c ≤ 122) ||
  [33, 35, 36, 37, 38, 39, 42, 43, 45, 46, 94, 95, 96, 124, 126].contains c

/-- `isTokenTable` from the headers package: nonempty, all bytes ≤ 127 and
in the allowed table. -/
def isTokenBytes (b : ByteStr) : Bool :=
  !b.isEmpty && b.all (fun c => c ≤ 127 && isTokenByte c)

/-- `textproto.CanonicalMIMEHeaderKey`'s per-byte case pass: capitalize
the first letter and each letter after a hyphen, lowercase the rest. -/
def canonStep : Bool → ByteStr → ByteStr
  | _, [] => []
  | up, c :: rest =>
    let c2 := if up ∧ 97 ≤ c ∧ c ≤ 122 then c - 32
              else if ¬ up ∧ 65 ≤ c ∧ c ≤ 90 then c + 32
              else c
    c2 :: canonStep (c2 = 45) rest

/-- `textproto.CanonicalMIMEHeaderKey`: keys with a non-token byte are
returned unchanged, otherwise hyphen-segment capitalization is applied. -/
def canonicalMIME (s : ByteStr) : ByteStr :=
  if s.all isTokenByte then canonStep true s else s

/-- Byte-lexicographic `≤` on byte strings, the order of Go `sort.Strings`. -/
def bytesLe : ByteStr → ByteStr → Bool
  | [], _ => true
  | _ :: _, [] => false
  | a :: as, b :: bs2 => if a < b then true else if b < a then false else bytesLe as bs2

def insertSorted (x : ByteStr) : List ByteStr → List ByteStr
  | [] => [x]
  | y :: ys => if bytesLe x y then x :: y :: ys else y :: insertSorted x ys

/-- Ascending byte-lexicographic sort, as `sort.Strings` over the
collected key list. -/
def sortKeys : List ByteStr → List ByteStr
  | [] => []
  | x :: xs => insertSorted x (sortKeys xs)

/-! ## Header container (`internal/headers`) -/

/-- `headers.Headers`, a Go `map[string]string`: association list with at
most one entry per (lowercased) key along any API-reachable value. -/
abbrev Headers := List (ByteStr × ByteStr)

/-- `headers.NewHeaders()`. -/
def NewHeaders : Headers := []

/-- Raw map read: the value stored at exactly key `k`. -/
def lookupKey : Headers → ByteStr → Option ByteStr
  | [], _ => none
  | (k2, v) :: rest, k => if k2 = k then some v else lookupKey rest k

/-- `Headers.Get`: case-insensitive lookup, empty string when absent. -/
def hGet (h : Headers) (name : ByteStr) : ByteStr :=
  (lookupKey h (toLowerB name)).getD []

/-- Map update used by `Headers.Set`: comma-append when the key exists. -/
def setEntry : Headers → ByteStr → ByteStr → Headers
  | [], n, v => [(n, v)]
  | (k, w) :: rest, n, v =>
    if k = n then (k, w ++ [44] ++ v) :: rest else (k, w) :: setEntry rest n v

/-- `Headers.Set(name, value)`: lowercases the name, comma-joins onto an
existing value, inserts otherwise. -/
def hSet (h : Headers) (name v : ByteStr) : Headers := setEntry h (toLowerB name) v

/-- Map update used by `Headers.Override`. -/
def overrideEntry : Headers → ByteStr → ByteStr → Headers
  | [], n, v => [(n, v)]
  | (k, w) :: rest, n, v =>
    if k = n then (k, v) :: rest else (k, w) :: overrideEntry rest n v

/-- `Headers.Override(name, value)`: lowercases the name and replaces. -/
def hOverride (h : Headers) (name v : ByteStr) : Headers :=
  overrideEntry h (toLowerB name) v

/-- `Headers.Delete(name)`: removes the (unique) entry at the lowercased
name; written as a filter, which agrees with Go `delete` on map-shaped
lists. -/
def hDelete (h : Headers) (name : ByteStr) : Headers :=
  h.filter (fun e => e.1 ≠ toLowerB name)

/-- Per-line cap of the headers package (`maxHeaderLine`). -/
def maxHeaderLine : Nat := 8 * 1024

/-- The parse-time error taxonomy of the request/headers packages, one
constructor per distinct Go error value. -/
inductive Err
  | malformedRequestLine
  | unsupportedHTTPVersion
  | unsupportedHTTPMethod
  | messageTooLarge
  | requestBodyExceedsCL
  | malformedHeaderLine
  | headerLineTooLong
  | teChunkedUnsupported
  | teUnsupported (te : ByteStr)
  | badContentLength (s : ByteStr)
  | unexpectedEOF
deriving DecidableEq, Repr

/-- `findCRLF l = some i` locates a CRLF, so at least `i + 2` bytes exist. -/
theorem findCRLF_bound : ∀ (l : ByteStr) (i : Nat), findCRLF l = some i → i + 2 ≤ l.length := by
  intro l
  induction l with
  | nil => intro i h; simp [findCRLF] at h
  | cons c rest ih =>
    intro i h
    simp only [findCRLF] at h
    by_cases hc : c = 13 ∧ rest.head? = some 10
    · simp only [if_pos hc] at h
      cases h
      cases rest with
      | nil => simp at hc
      | cons d t => simp [List.length]
    · simp only [if_neg hc, Option.map_eq_some'] at h
      obtain ⟨j, hj, hji⟩ := h
      have := ih j hj
      simp [List.length]
      omega

/-- `Headers.Parse`'s loop: `rest` is the unconsumed tail of the buffer,
`off` the bytes already consumed by this call.  The Go locals `line`
(= `rest.take idx`) and `nameRaw` (= `line.take colon`) are inlined. -/
def headersParseAux (h : Headers) (rest : ByteStr) (off : Nat) : Headers × Nat × Bool × Option Err :=
  match hf : findCRLF rest with
  | none =>
    if maxHeaderLine < rest.length then (h, 0, false, some .headerLineTooLong)
    else (h, off, false, none)
  | some idx =>
    if maxHeaderLine < idx then (h, 0, false, some .headerLineTooLong)
    else if rest.take idx = [] then (h, off + idx + 2, true, none)
    else if (rest.take idx).headD 0 = 32 ∨ (rest.take idx).headD 0 = 9 then
      (h, 0, false, some .malformedHeaderLine)
    else
      match idxOfByte 58 (rest.take idx) with
      | none => (h, 0, false, some .malformedHeaderLine)
      | some colon =>
        if colon = 0 then (h, 0, false, some .malformedHeaderLine)
        else if ((rest.take idx).take colon).any (fun c => c == 32 || c == 9) then
          (h, 0, false, some .malformedHeaderLine)
        else if ¬ isTokenBytes ((rest.take idx).take colon) then
          (h, 0, false, some .malformedHeaderLine)
        else
          headersParseAux
            (hSet h (toLowerB ((rest.take idx).take colon))
              (trimSpaceTab ((rest.take idx).drop (colon + 1))))
            (rest.drop (idx + 2)) (off + idx + 2)
termination_by rest.length
decreasing_by
  have hb := findCRLF_bound rest idx hf
  simp only [List.length_drop]
  omega

/-- `Headers.Parse(data)`, returning `(headers, n, done, err)`. -/
def headersParse (h : Headers) (data : ByteStr) : Headers × Nat × Bool × Option Err :=
  headersParseAux h data 0

/-- The byte count reported by the header-parse loop never exceeds the
bytes available (`off` already consumed plus the remaining buffer). -/
theorem headersParseAux_le (h : Headers) (rest : ByteStr) (off : Nat) :
    (headersParseAux h rest off).2.1 ≤ off + rest.length := by
  induction h, rest, off using headersParseAux.induct with
  | case1 h rest off hf hlt => rw [headersParseAux, hf]; simp [hlt]
  | case2 h rest off hf hlt => rw [headersParseAux, hf]; simp [hlt]
  | case3 h rest off idx hf hlt => rw [headersParseAux, hf]; simp [hlt]
  | case4 h rest off idx hf hlt hbl =>
    rw [headersParseAux, hf]
    have hb := findCRLF_bound rest idx hf
    simp only [if_neg hlt, if_pos hbl]
    simp
    omega
  | case5 h rest off idx hf hlt hne hfold =>
    rw [headersParseAux, hf]
    simp only [if_neg hlt, if_neg hne, if_pos hfold]
    simp
  | case6 h rest off idx hf hlt hne hnf hcol =>
    rw [headersParseAux, hf]
    simp only [if_neg hlt, if_neg hne, if_neg hnf, hcol]
    simp
  | case7 h rest off idx hf hlt hne hnf hcol =>
    rw [headersParseAux, hf]
    simp only [if_neg hlt, if_neg hne, if_neg hnf, hcol]
    simp
  | case8 h rest off idx hf hlt hne hnf colon hcol hz hsp =>
    rw [headersParseAux, hf]
    simp only [if_neg hlt, if_neg hne, if_neg hnf, hcol, if_neg hz, if_pos hsp]
    simp
  | case9 h rest off idx hf hlt hne hnf colon hcol hz hnsp htok =>
    rw [headersParseAux, hf]
    simp only [if_neg hlt, if_neg hne, if_neg hnf, hcol, if_neg hz, if_neg hnsp, if_pos htok]
    simp
  | case10 h rest off idx hf hlt hne hnf colon hcol hz hnsp hntok ih =>
    rw [headersParseAux, hf]
    have hb := findCRLF_bound rest idx hf
    simp only [if_neg hlt, if_neg hne, if_neg hnf, hcol, if_neg hz, if_neg hnsp, if_neg hntok]
    simp only [List.length_drop] at ih
    omega

/-- When the header-parse loop reports the end-of-headers blank line, it
consumed strictly more than the offset it started from. -/
theorem headersParseAux_pos_of_done (h : Headers) (rest : ByteStr) (off : Nat) :
    (headersParseAux h rest off).2.2.1 = true → off < (headersParseAux h rest off).2.1 := by
  induction h, rest, off using headersParseAux.induct with
  | case1 h rest off hf hlt => rw [headersParseAux, hf]; simp [hlt]
  | case2 h rest off hf hlt => rw [headersParseAux, hf]; simp [hlt]
  | case3 h rest off idx hf hlt => rw [headersParseAux, hf]; simp [hlt]
  | case4 h rest off idx hf hlt hbl =>
    rw [headersParseAux, hf]
    simp only [if_neg hlt, if_pos hbl]
    simp
    omega
  | case5 h rest off idx hf hlt hne hfold =>
    rw [headersParseAux, hf]
    simp only [if_neg hlt, if_neg hne, if_pos hfold]
    simp
  | case6 h rest off idx hf hlt hne hnf hcol =>
    rw [headersParseAux, hf]
    simp only [if_neg hlt, if_neg hne, if_neg hnf, hcol]
    simp
  | case7 h rest off idx hf hlt hne hnf hcol =>
    rw [headersParseAux, hf]
    simp only [if_neg hlt, if_neg hne, if_neg hnf, hcol]
    simp
  | case8 h rest off idx hf hlt hne hnf colon hcol hz hsp =>
    rw [headersParseAux, hf]
    simp only [if_neg hlt, if_neg hne, if_neg hnf, hcol, if_neg hz, if_pos hsp]
    simp
  | case9 h rest off idx hf hlt hne hnf colon hcol hz hnsp htok =>
    rw [headersParseAux, hf]
    simp only [if_neg hlt, if_neg hne, if_neg hnf, hcol, if_neg hz, if_neg hnsp, if_pos htok]
    simp
  | case10 h rest off idx hf hlt hne hnf colon hcol hz hnsp hntok ih =>
    rw [headersParseAux, hf]
    simp only [if_neg hlt, if_neg hne, if_neg hnf, hcol, if_neg hz, if_neg hnsp, if_neg hntok]
    intro hd
    exact lt_trans (by omega) (ih hd)

/-! ## Request parser (`internal/request`) -/

/-- Start-line buffer cap (`maxStartLine`). -/
def maxStartLine : Nat := 8 * 1024

/-- Body cap (`maxBodyBytes`), 10 MiB. -/
def maxBodyBytes : Nat := 10 * 1024 * 1024

/-- The `allowedMethods` set. -/
def allowedMethodsList : List ByteStr :=
  [asciiOf "GET", asciiOf "HEAD", asciiOf "POST", asciiOf "PUT", asciiOf "DELETE",
   asciiOf "CONNECT", asciiOf "OPTIONS", asciiOf "TRACE", asciiOf "PATCH"]

/-- `request.RequestState`. -/
inductive RState
  | initialized
  | parsingHeaders
  | parsingBody
  | done
  | error
deriving DecidableEq, Repr

/-- `request.RequestLine`. -/
structure RequestLine where
  httpVersion : ByteStr
  requestTarget : ByteStr
  method : ByteStr
deriving DecidableEq, Repr

/-- `request.Request`. -/
structure Req where
  requestLine : Option RequestLine
  headers : Headers
  body : ByteStr
  state : RState
  parseErr : Option Err
deriving DecidableEq, Repr

/-- `request.newRequest()`. -/
def newRequest : Req :=
  { requestLine := none, headers := NewHeaders, body := [], state := .initialized,
    parseErr := none }

/-- `Request.setErr`. -/
def setErr (r : Req) (e : Err) : Req := { r with state := .error, parseErr := some e }

/-- The three outcomes of `ParseRequestLine`: `(nil, 0, nil)` when no CRLF
has arrived, `(nil, 0, err)` on a validation failure, `(rl, n, nil)` on
success. -/
inductive RLResult
  | needMore
  | failed (e : Err)
  | ok (rl : RequestLine) (n : Nat)
deriving DecidableEq, Repr

/-- `request.ParseRequestLine`. -/
def parseRequestLine (s : ByteStr) : RLResult :=
  match hcr : findCRLF s with
  | none => .needMore
  | some idx =>
    if (fields (s.take idx)).length ≠ 3 then .failed .malformedRequestLine
    else if (fields (s.take idx)).getD 0 [] ∉ allowedMethodsList then
      .failed .unsupportedHTTPMethod
    else if (fields (s.take idx)).getD 2 [] ≠ asciiOf "HTTP/1.1" then
      .failed .unsupportedHTTPVersion
    else
      .ok { httpVersion := (splitOnByte 47 ((fields (s.take idx)).getD 2 [])).getD 1 [],
            requestTarget := (fields (s.take idx)).getD 1 [],
            method := (fields (s.take idx)).getD 0 [] }
        (idx + 2)

/-- A successful `ParseRequestLine` consumed between 1 byte and the whole
buffer. -/
theorem parseRequestLine_ok_bound (s : ByteStr) (rl : RequestLine) (n : Nat) :
    parseRequestLine s = .ok rl n → 0 < n ∧ n ≤ s.length := by
  intro hok
  unfold parseRequestLine at hok
  split at hok
  · simp at hok
  · rename_i idx hf
    have hb := findCRLF_bound s idx hf
    split at hok
    · simp at hok
    · split at hok
      · simp at hok
      · split at hok
        · simp at hok
        · simp only [RLResult.ok.injEq] at hok
          obtain ⟨-, hn⟩ := hok
          omega

/-- `Request.hasBody`: `.ok none` for "no body", `.ok (some want)` for a
positive expected length, `.error e` on framing errors. -/
def hasBody (h : Headers) : Except Err (Option Nat) :=
  if toLowerB (trimSpace (hGet h (asciiOf "transfer-encoding"))) ≠ [] then
    if containsSeq (toLowerB (trimSpace (hGet h (asciiOf "transfer-encoding"))))
        (asciiOf "chunked") then
      .error .teChunkedUnsupported
    else .error (.teUnsupported (toLowerB (trimSpace (hGet h (asciiOf "transfer-encoding")))))
  else if trimSpace (hGet h (asciiOf "content-length")) = [] then .ok none
  else
    match parseInt64 (trimSpace (hGet h (asciiOf "content-length"))) with
    | none => .error (.badContentLength (trimSpace (hGet h (asciiOf "content-length"))))
    | some cl =>
      if cl < 0 then .error (.badContentLength (trimSpace (hGet h (asciiOf "content-length"))))
      else if cl = 0 then .ok none
      else if (maxBodyBytes : Int) < cl then .error .messageTooLarge
      else .ok (some cl.toNat)

theorem headersParse_le (h : Headers) (data : ByteStr) :
    (headersParse h data).2.1 ≤ data.length := by
  simpa using headersParseAux_le h data 0

theorem headersParse_pos_of_done (h : Headers) (data : ByteStr) :
    (headersParse h data).2.2.1 = true → 0 < (headersParse h data).2.1 := by
  simpa using headersParseAux_pos_of_done h data 0

/-- `Request.parse`'s outer loop.  `rest` is `data[read:]`; the result is
`(request, bytes consumed, error)`; each `continue` of the Go loop is a
recursive call on the unconsumed tail. -/
def reqParseAux (req : Req) (rest : ByteStr) (read : Nat) : Req × Nat × Option Err :=
  match req.state with
  | .error => (req, read, none)
  | .done => (req, read, none)
  | .initialized =>
    match hrl : parseRequestLine rest with
    | .failed e => (setErr req e, 0, some e)
    | .needMore => (req, read, none)
    | .ok rl n =>
      reqParseAux { req with requestLine := some rl, state := .parsingHeaders }
        (rest.drop n) (read + n)
  | .parsingHeaders =>
    match hhp : headersParse req.headers rest with
    | (h2, n, d, some e) => (setErr { req with headers := h2 } e, 0, some e)
    | (h2, n, d, none) =>
      if hd : d then
        match hasBody h2 with
        | .error e => (setErr { req with headers := h2 } e, 0, some e)
        | .ok none => ({ req with headers := h2, state := .done }, read + n, none)
        | .ok (some _) =>
          reqParseAux { req with headers := h2, state := .parsingBody } (rest.drop n) (read + n)
      else if hn : n = 0 then ({ req with headers := h2 }, read, none)
      else reqParseAux { req with headers := h2 } (rest.drop n) (read + n)
  | .parsingBody =>
    match hasBody req.headers with
    | .error e => (setErr req e, 0, some e)
    | .ok none => ({ req with state := .done }, read, none)
    | .ok (some want) =>
      if want < req.body.length then
        (setErr req .requestBodyExceedsCL, 0, some .requestBodyExceedsCL)
      else if req.body.length = want then ({ req with state := .done }, read, none)
      else
        ((fun reqA => (if reqA.body.length = want then { reqA with state := .done } else reqA,
            read + min (want - req.body.length) rest.length, none))
          (if 0 < min (want - req.body.length) rest.length then
            { req with body := req.body ++ rest.take (min (want - req.body.length) rest.length) }
          else req))
termination_by rest.length
decreasing_by
  · have hb := parseRequestLine_ok_bound rest rl n hrl
    simp only [List.length_drop]
    omega
  · have h1 := headersParse_le req.headers rest
    have h2b := headersParse_pos_of_done req.headers rest
    rw [hhp] at h1 h2b
    simp at h1 h2b
    have := h2b hd
    simp only [List.length_drop]
    omega
  · have h1 := headersParse_le req.headers rest
    rw [hhp] at h1
    simp at h1
    simp only [List.length_drop]
    omega

/-- `Request.parse(data)`. -/
def reqParse (req : Req) (data : ByteStr) : Req × Nat × Option Err :=
  reqParseAux req data 0

/-- After `RequestFromReader`'s loop: surface a recorded parse error,
otherwise the request (the error branch is unreachable, kept for
faithfulness to the Go epilogue). -/
def finishRfr (req : Req) : Except Err Req :=
  if req.state = .error then .error (req.parseErr.getD .unexpectedEOF) else .ok req

/-- `request.RequestFromReader`, with the stream modelled as the list of
successful reads (each one Go `Read` returning `(len c, nil)`), followed
by a final `(0, io.EOF)` read when the list is exhausted.  The start-line
cap check, the parse call and the buffer compaction mirror the Go loop
body; the loop condition `!req.done()` is checked before every read. -/
def rfrAux (req : Req) (buf : ByteStr) : List ByteStr → Except Err Req
  | [] =>
    if req.state = .done then finishRfr req
    else if req.state = .error then .error (req.parseErr.getD .unexpectedEOF)
    else .error .unexpectedEOF
  | c :: rest =>
    if req.state = .done then finishRfr req
    else if c = [] then rfrAux req buf rest
    else
      if req.state = .initialized ∧ maxStartLine < (buf ++ c).length then
        .error .malformedRequestLine
      else
        match reqParse req (buf ++ c) with
        | (_, _, some e) => .error e
        | (req2, n, none) => rfrAux req2 ((buf ++ c).drop n) rest

/-- `request.RequestFromReader(r)` over the modelled read stream. -/
def requestFromReader (chunks : List ByteStr) : Except Err Req :=
  rfrAux newRequest [] chunks

/-! ## Response writer (`internal/response`, the `Writer` version) -/

/-- `response.StatusCodeName` lookup. -/
def statusReason (c : Int) : Option ByteStr :=
  if c = 200 then some (asciiOf "OK")
  else if c = 400 then some (asciiOf "Bad Request")
  else if c = 500 then some (asciiOf "Internal Server Error")
  else none

/-- Bytes emitted by `Writer.WriteStatusLine(code)`:
`"HTTP/1.1 <code> <reason>\r\n"` with reason defaulting to `"Unknown"`. -/
def writeStatusLineBytes (c : Int) : ByteStr :=
  asciiOf "HTTP/1.1 " ++ intToDec c ++ [32] ++ (statusReason c).getD (asciiOf "Unknown") ++ [13, 10]

/-- `response.GetDefaultHeaders(contentLen)`. -/
def getDefaultHeaders (contentLen : Nat) : Headers :=
  hSet (hSet (hSet NewHeaders (asciiOf "content-length") (natToDec contentLen))
      (asciiOf "connection") (asciiOf "close"))
    (asciiOf "content-type") (asciiOf "text/plain")

/-- `tokenListContains(list, token)`: split on commas, trim each part,
compare for equality. -/
def tokenListContains (list token : ByteStr) : Bool :=
  (splitOnByte 44 list).any (fun t => trimSpace t = token)

/-- The overlay loop of `Writer.WriteHeaders`: `h.Override(k, w.Get(k))`
for every key of the writer-level headers `w`. -/
def overlayHeaders (w h : Headers) : Headers :=
  w.foldl (fun acc e => hOverride acc e.1 (hGet w e.1)) h

/-- Header-block serialization: keys collected, sorted, emitted as
`<Canonical>: <value>\r\n` lines plus the final blank line. -/
def renderHeaderBlock (h : Headers) : ByteStr :=
  ((sortKeys (h.map (fun e => e.1))).map
    (fun k => canonicalMIME k ++ [58, 32] ++ hGet h k ++ [13, 10])).flatten ++ [13, 10]

/-- The effective header set of `Writer.WriteHeaders`: overlay the
writer-level headers, then drop Content-Length when the (lowercased)
Transfer-Encoding token list contains `chunked`. -/
def effectiveHeaders (wh : Option Headers) (h : Headers) : Headers :=
  (fun h2 =>
    if tokenListContains (toLowerB (hGet h2 (asciiOf "transfer-encoding"))) (asciiOf "chunked")
    then hDelete h2 (asciiOf "content-length")
    else h2)
  (match wh with
   | none => h
   | some w => overlayHeaders w h)

/-- Bytes emitted by `Writer.WriteHeaders(h)` (`part_001`): `nil` headers
produce just the blank line; otherwise the writer-level overlay, the
chunked/Content-Length exclusion, and the sorted canonical emission. -/
def writeHeadersBytes (wh : Option Headers) (hOpt : Option Headers) : ByteStr :=
  match hOpt with
  | none => [13, 10]
  | some h => renderHeaderBlock (effectiveHeaders wh h)

/-! ## Per-connection handling (`part_002` `Server.handle`) -/

/-- The handler contract: the handler mutates the writer's `Status`,
`Headers` and `Body`; its observable effect is the final triple. -/
structure HandlerOut where
  status : Int
  wHeaders : Headers
  body : ByteStr
deriving DecidableEq, Repr

/-- The literal `400` response `Server.handle` writes on a parse failure. -/
def literal400 : ByteStr :=
  asciiOf "HTTP/1.1 400 Bad Request\r\nConnection: close\r\nContent-Length: 0\r\n\r\n"

/-- `Server.handle` over the modelled connection: returns the bytes
written to the connection and whether the handler function was invoked.
On a parse error the literal 400 response is written directly; otherwise
the writer emits status line, headers (defaults for the body length,
overlaid with the handler's writer-level headers) and the body. -/
def handleBytes (handler : Req → HandlerOut) (chunks : List ByteStr) : ByteStr × Bool :=
  match requestFromReader chunks with
  | .error _ => (literal400, false)
  | .ok req =>
    ((fun out =>
      writeStatusLineBytes out.status ++
        writeHeadersBytes (some out.wHeaders) (some (getDefaultHeaders out.body.length)) ++
        out.body)
      (handler req), true)

/-! ## Supporting lemmas -/

/-- Key list of a header container. -/
def hKeys (h : Headers) : List ByteStr := h.map (fun e => e.1)

theorem lookupKey_setEntry_self (h : Headers) (n v : ByteStr) :
    lookupKey (setEntry h n v) n =
      some (match lookupKey h n with
            | some old => old ++ [44] ++ v
            | none => v) := by
  induction h with
  | nil => simp [setEntry, lookupKey]
  | cons e rest ih =>
    obtain ⟨k, w⟩ := e
    by_cases hk : k = n
    · subst hk; simp [setEntry, lookupKey]
    · simp [setEntry, lookupKey, hk, ih]

theorem lookupKey_eq_none_iff (h : Headers) (n : ByteStr) :
    lookupKey h n = none ↔ n ∉ hKeys h := by
  induction h with
  | nil => simp [lookupKey, hKeys]
  | cons e rest ih =>
    obtain ⟨k, w⟩ := e
    by_cases hk : k = n
    · subst hk; simp [lookupKey, hKeys]
    · simp [lookupKey, hk, hKeys] at ih ⊢
      exact ⟨fun hr => ⟨fun hnk => hk hnk.symm, ih.1 hr⟩, fun hc => ih.2 hc.2⟩

theorem hKeys_setEntry (h : Headers) (n v : ByteStr) :
    hKeys (setEntry h n v) =
      if lookupKey h n = none then hKeys h ++ [n] else hKeys h := by
  induction h with
  | nil => simp [setEntry, hKeys, lookupKey]
  | cons e rest ih =>
    obtain ⟨k, w⟩ := e
    by_cases hk : k = n
    · subst hk; simp [setEntry, hKeys, lookupKey]
    · simp only [setEntry, hKeys, lookupKey, if_neg hk, List.map_cons] at ih ⊢
      by_cases hr : lookupKey rest n = none
      · simp [hr] at ih ⊢; exact ih
      · simp [hr] at ih ⊢; exact ih

theorem mem_insertSorted (x y : ByteStr) (l : List ByteStr) :
    y ∈ insertSorted x l ↔ y = x ∨ y ∈ l := by
  induction l with
  | nil => simp [insertSorted]
  | cons z zs ih =>
    rw [insertSorted]
    by_cases hle : bytesLe x z
    · simp [hle]
    · simp [hle, ih]
      tauto

theorem mem_sortKeys (y : ByteStr) (l : List ByteStr) : y ∈ sortKeys l ↔ y ∈ l := by
  induction l with
  | nil => simp [sortKeys]
  | cons z zs ih => rw [sortKeys, mem_insertSorted]; simp [ih]

theorem lookupKey_hDelete_self (h : Headers) (name : ByteStr) :
    lookupKey (hDelete h name) (toLowerB name) = none := by
  induction h with
  | nil => simp [hDelete, lookupKey]
  | cons e rest ih =>
    obtain ⟨k, w⟩ := e
    by_cases hk : k = toLowerB name
    · simpa [hDelete, List.filter, hk] using ih
    · simpa [hDelete, List.filter, hk, lookupKey] using ih

theorem not_mem_hKeys_hDelete (h : Headers) (name : ByteStr) :
    toLowerB name ∉ hKeys (hDelete h name) := by
  simp only [hKeys, hDelete, List.mem_map, List.mem_filter]
  rintro ⟨e, ⟨-, hne⟩, hfst⟩
  simp only [decide_eq_true_eq] at hne
  exact hne hfst

theorem findCRLF_replicate65 (n : Nat) : findCRLF (List.replicate n 65) = none := by
  induction n with
  | zero => simp [findCRLF]
  | succ k ih => simp [List.replicate_succ, findCRLF, ih]

theorem findCRLF_replicate65_append (n : Nat) (l : ByteStr) :
    findCRLF (List.replicate n 65 ++ 13 :: 10 :: l) = some n := by
  induction n with
  | zero => simp [findCRLF]
  | succ k ih => simp [List.replicate_succ, findCRLF, ih]

theorem parseRequestLine_replicate65 (m : Nat) :
    parseRequestLine (List.replicate m 65) = .needMore := by
  rw [parseRequestLine, findCRLF_replicate65]

theorem reqParse_replicate65 (m : Nat) :
    reqParse newRequest (List.replicate m 65) = (newRequest, 0, none) := by
  rw [reqParse, reqParseAux, parseRequestLine_replicate65]
  simp [newRequest]

/-- One accept iteration of the reader loop on an all-`A` stream below
the start-line cap: the 1024-byte read is appended and nothing parses. -/
theorem c9_step (k : Nat) (rest : List ByteStr) (hk : k + 1024 ≤ maxStartLine) :
    rfrAux newRequest (List.replicate k 65) (List.replicate 1024 65 :: rest) =
      rfrAux newRequest (List.replicate (k + 1024) 65) rest := by
  rw [rfrAux]
  rw [if_neg (show ¬ newRequest.state = .done from by simp [newRequest])]
  rw [if_neg (show ¬ (List.replicate 1024 65 : ByteStr) = [] from by simp)]
  rw [show List.replicate k 65 ++ List.replicate 1024 65 = List.replicate (k + 1024) (65 : Nat)
    from (List.replicate_add k 1024 65).symm]
  rw [if_neg (show ¬ (newRequest.state = .initialized ∧
      maxStartLine < (List.replicate (k + 1024) (65 : Nat)).length) from by
    simp [newRequest, List.length_replicate]
    omega)]
  rw [reqParse_replicate65]
  simp only [List.drop_zero]

/-- The ninth 1024-byte read pushes the buffered size to 9216 > 8192
while the start-line is still unparsed: the loop fails before parsing. -/
theorem c9_final (rest : List ByteStr) :
    rfrAux newRequest (List.replicate 8192 65) (List.replicate 1024 65 :: rest) =
      .error .malformedRequestLine := by
  rw [rfrAux]
  rw [if_neg (show ¬ newRequest.state = .done from by simp [newRequest])]
  rw [if_neg (show ¬ (List.replicate 1024 65 : ByteStr) = [] from by simp)]
  rw [show List.replicate 8192 65 ++ List.replicate 1024 65 = List.replicate 9216 (65 : Nat) from by
    rw [← List.replicate_add]]
  rw [if_pos (show newRequest.state = .initialized ∧
      maxStartLine < (List.replicate 9216 (65 : Nat)).length from by
    refine ⟨rfl, ?_⟩
    rw [List.length_replicate]
    norm_num [maxStartLine])]

/-- `bytes.Index` only inspects the prefix up to the first CRLF: appending
more bytes after a found CRLF does not change the result. -/
theorem findCRLF_append_left : ∀ (a : ByteStr) (i : Nat) (b : ByteStr),
    findCRLF a = some i → findCRLF (a ++ b) = some i := by
  intro a
  induction a with
  | nil => intro i b h; simp [findCRLF] at h
  | cons c rest ih =>
    intro i b h
    rw [findCRLF] at h
    by_cases hc : c = 13 ∧ rest.head? = some 10
    · rw [if_pos hc] at h
      cases h
      obtain ⟨h13, h10⟩ := hc
      subst h13
      cases rest with
      | nil => simp at h10
      | cons d t =>
        simp at h10
        subst h10
        simp [findCRLF]
    · rw [if_neg hc] at h
      simp only [Option.map_eq_some'] at h
      obtain ⟨j, hj, hji⟩ := h
      subst hji
      have hbc : ¬ (c = 13 ∧ (rest ++ b).head? = some 10) := by
        intro ⟨h13, h10⟩
        cases rest with
        | nil => simp [findCRLF] at hj
        | cons d t =>
          simp at h10
          exact hc ⟨h13, by simp [h10]⟩
      rw [List.cons_append, findCRLF, if_neg hbc, ih j b hj]
      rfl

/-- `Request.parse` on `"POST / HTTP/1.1\r\nContent-Length: 5\r\n\r\n"`
followed by fewer than five body bytes: the start line and headers are
consumed, the whole partial body is appended, and the machine rests in
`ParsingBody` having consumed the entire buffer without error. -/
theorem reqParse_cl5_shortBody (body : ByteStr) (hlen : body.length < 5) :
    reqParse newRequest
      ([80, 79, 83, 84, 32, 47, 32, 72, 84, 84, 80, 47, 49, 46, 49, 13, 10, 67, 111, 110, 116,
        101, 110, 116, 45, 76, 101, 110, 103, 116, 104, 58, 32, 53, 13, 10, 13, 10] ++ body) =
      ({ requestLine := some ⟨asciiOf "1.1", asciiOf "/", asciiOf "POST"⟩,
         headers := [(asciiOf "content-length", asciiOf "5")],
         body := body, state := .parsingBody, parseErr := none }, 38 + body.length, none) := by
  have hmin : min 5 body.length = body.length := by omega
  have hne5 : ¬ body.length = 5 := by omega
  have hrl : parseRequestLine
      ([80, 79, 83, 84, 32, 47, 32, 72, 84, 84, 80, 47, 49, 46, 49, 13, 10, 67, 111, 110, 116,
        101, 110, 116, 45, 76, 101, 110, 103, 116, 104, 58, 32, 53, 13, 10, 13, 10] ++ body) =
      .ok ⟨asciiOf "1.1", asciiOf "/", asciiOf "POST"⟩ 17 := by
    rw [parseRequestLine,
      findCRLF_append_left _ 15 _ (by decide)]
    simp only []
    rw [List.take_append_of_le_length (by decide)]
    decide
  have hdrop17 :
      ([80, 79, 83, 84, 32, 47, 32, 72, 84, 84, 80, 47, 49, 46, 49, 13, 10, 67, 111, 110, 116,
        101, 110, 116, 45, 76, 101, 110, 103, 116, 104, 58, 32, 53, 13, 10, 13, 10] ++
          body).drop 17 =
      [67, 111, 110, 116, 101, 110, 116, 45, 76, 101, 110, 103, 116, 104, 58, 32, 53, 13, 10,
        13, 10] ++ body := by
    rw [List.drop_append_of_le_length (by decide)]
    exact congrArg (· ++ body) (by decide)
  have hhp : headersParse NewHeaders
      ([67, 111, 110, 116, 101, 110, 116, 45, 76, 101, 110, 103, 116, 104, 58, 32, 53, 13, 10,
        13, 10] ++ body) =
      ([(asciiOf "content-length", asciiOf "5")], 21, true, none) := by
    rw [headersParse, headersParseAux,
      findCRLF_append_left _ 17 _ (by decide)]
    simp only []
    rw [List.take_append_of_le_length (by decide)]
    rw [List.drop_append_of_le_length (by decide)]
    simp [headersParseAux, findCRLF, idxOfByte, isTokenBytes, isTokenByte, toLowerB, trimSpaceTab,
      isSpaceTabB, hSet, setEntry, NewHeaders, maxHeaderLine, asciiOf]
  have hdrop21 : ([67, 111, 110, 116, 101, 110, 116, 45, 76, 101, 110, 103, 116, 104, 58, 32,
      53, 13, 10, 13, 10] ++ body).drop 21 = body := by
    rw [List.drop_append_of_le_length (by decide)]
    have h0 : List.drop 21 [67, 111, 110, 116, 101, 110, 116, 45, 76, 101, 110, 103, 116, 104,
        58, 32, 53, 13, 10, 13, 10] = ([] : ByteStr) := by decide
    rw [h0, List.nil_append]
  have hbody5 : hasBody [(asciiOf "content-length", asciiOf "5")] = .ok (some 5) := by rfl
  by_cases hb0 : body = []
  · subst hb0
    rw [reqParse, reqParseAux]
    simp only [newRequest]
    rw [hrl]
    simp only []
    rw [reqParseAux]
    simp only []
    rw [hdrop17, hhp]
    simp only []
    simp [hbody5, hdrop21, reqParseAux]
  · have hpos : 0 < body.length := List.length_pos.2 hb0
    rw [reqParse, reqParseAux]
    simp only [newRequest]
    rw [hrl]
    simp only []
    rw [reqParseAux]
    simp only []
    rw [hdrop17, hhp]
    simp only []
    simp [hbody5, hdrop21, hmin, hpos, hne5, reqParseAux, List.take_length]

/-! ## Claim theorems -/

/-- C1: Round-trip serialization — `WriteStatusLine(200)`, then
`WriteHeaders(GetDefaultHeaders(2))` under the writer-level overlay
`{content-type: text/plain}`, then `WriteBody("OK")` emits exactly
`"HTTP/1.1 200 OK\r\nConnection: close\r\nContent-Length: 2\r\nContent-Type: text/plain\r\n\r\nOK"`:
writer-level headers merged via override, headers sorted by lower-cased
name in canonical hyphen-segment capitalization, one trailing CRLF
ending the header block. -/
theorem c1_writer_roundtrip :
    writeStatusLineBytes 200 ++
      writeHeadersBytes (some (hSet NewHeaders (asciiOf "content-type") (asciiOf "text/plain")))
        (some (getDefaultHeaders 2)) ++
      asciiOf "OK" =
    asciiOf
      "HTTP/1.1 200 OK\r\nConnection: close\r\nContent-Length: 2\r\nContent-Type: text/plain\r\n\r\nOK" := by
  decide

/-- C2: whenever `RequestFromReader` fails on the input stream, the
connection task writes exactly the literal
`"HTTP/1.1 400 Bad Request\r\nConnection: close\r\nContent-Length: 0\r\n\r\n"`
and never invokes the handler, for every member of the error taxonomy. -/
theorem c2_parse_failure_writes_literal_400 (handler : Req → HandlerOut)
    (chunks : List ByteStr) (e : Err) (herr : requestFromReader chunks = .error e) :
    handleBytes handler chunks =
      (asciiOf "HTTP/1.1 400 Bad Request\r\nConnection: close\r\nContent-Length: 0\r\n\r\n",
        false) := by
  unfold handleBytes
  rw [herr]
  rfl

/-- Witness for C2 at a concrete malformed stream. -/
theorem c2_parse_failure_writes_literal_400_witness :
    requestFromReader [asciiOf "BAD\r\n"] = .error .malformedRequestLine ∧
      handleBytes (fun _ => ⟨200, NewHeaders, []⟩) [asciiOf "BAD\r\n"] =
        (asciiOf "HTTP/1.1 400 Bad Request\r\nConnection: close\r\nContent-Length: 0\r\n\r\n",
          false) := by
  have herr : requestFromReader [asciiOf "BAD\r\n"] = .error .malformedRequestLine := by
    have ha : asciiOf "BAD\r\n" = [66, 65, 68, 13, 10] := by decide
    rw [requestFromReader, ha, rfrAux]
    simp [newRequest, reqParse, reqParseAux, parseRequestLine, findCRLF, fields, fieldsAux,
      isSpaceB, allowedMethodsList, maxStartLine, setErr, asciiOf]
  exact ⟨herr, c2_parse_failure_writes_literal_400 _ _ _ herr⟩

/-- C3: the framing decision of `Request.hasBody` — any nonempty (trimmed)
Transfer-Encoding value is an error (chunked or otherwise); otherwise an
absent Content-Length means no body; a Content-Length that does not
parse as a 64-bit non-negative integer is a framing error; a parsed
value of 0 means no body; a parsed value exceeding 10 MiB is the
message-too-large error; and otherwise the expected body length equals
the parsed Content-Length. -/
theorem c3_framing_decision (h : Headers) :
    (trimSpace (hGet h (asciiOf "transfer-encoding")) ≠ [] → ∃ e, hasBody h = .error e) ∧
    (trimSpace (hGet h (asciiOf "transfer-encoding")) = [] →
      (trimSpace (hGet h (asciiOf "content-length")) = [] → hasBody h = .ok none) ∧
      (parseInt64 (trimSpace (hGet h (asciiOf "content-length"))) = none →
        trimSpace (hGet h (asciiOf "content-length")) ≠ [] →
        hasBody h =
          .error (.badContentLength (trimSpace (hGet h (asciiOf "content-length"))))) ∧
      (∀ cl, parseInt64 (trimSpace (hGet h (asciiOf "content-length"))) = some cl →
        trimSpace (hGet h (asciiOf "content-length")) ≠ [] →
        (cl < 0 →
          hasBody h =
            .error (.badContentLength (trimSpace (hGet h (asciiOf "content-length"))))) ∧
        (cl = 0 → hasBody h = .ok none) ∧
        ((maxBodyBytes : Int) < cl → hasBody h = .error .messageTooLarge) ∧
        (0 < cl → cl ≤ (maxBodyBytes : Int) → hasBody h = .ok (some cl.toNat)))) := by
  constructor
  · intro hte
    have hne : toLowerB (trimSpace (hGet h (asciiOf "transfer-encoding"))) ≠ [] := by
      simpa [toLowerB] using hte
    unfold hasBody
    rw [if_pos hne]
    by_cases hc : containsSeq (toLowerB (trimSpace (hGet h (asciiOf "transfer-encoding"))))
        (asciiOf "chunked")
    · rw [if_pos hc]; exact ⟨_, rfl⟩
    · rw [if_neg hc]; exact ⟨_, rfl⟩
  · intro hte
    have hz : ¬ toLowerB (trimSpace (hGet h (asciiOf "transfer-encoding"))) ≠ [] := by
      simp [hte, toLowerB]
    refine ⟨?_, ?_, ?_⟩
    · intro hcl
      unfold hasBody
      rw [if_neg hz, if_pos hcl]
    · intro hp hcl
      unfold hasBody
      rw [if_neg hz, if_neg hcl, hp]
    · intro cl hp hcl
      refine ⟨?_, ?_, ?_, ?_⟩
      · intro hneg
        unfold hasBody
        rw [if_neg hz, if_neg hcl, hp]
        simp only [if_pos hneg]
      · intro h0
        unfold hasBody
        rw [if_neg hz, if_neg hcl, hp]
        have : ¬ cl < 0 := by omega
        simp only [if_neg this, if_pos h0]
      · intro hbig
        unfold hasBody
        rw [if_neg hz, if_neg hcl, hp]
        have h1 : ¬ cl < 0 := by
          have : (0 : Int) ≤ (maxBodyBytes : Int) := by positivity
          omega
        have h2 : ¬ cl = 0 := by
          have : (0 : Int) < (maxBodyBytes : Int) := by norm_num [maxBodyBytes]
          omega
        simp only [if_neg h1, if_neg h2, if_pos hbig]
      · intro hpos hle
        unfold hasBody
        rw [if_neg hz, if_neg hcl, hp]
        have h1 : ¬ cl < 0 := by omega
        have h2 : ¬ cl = 0 := by omega
        have h3 : ¬ (maxBodyBytes : Int) < cl := by omega
        simp only [if_neg h1, if_neg h2, if_neg h3]

/-- Witness for C3: `Content-Length: 5` yields a 5-byte body; a
`Transfer-Encoding: chunked` header yields an error. -/
theorem c3_framing_decision_witness :
    hasBody [(asciiOf "content-length", asciiOf "5")] = .ok (some ((5 : Int).toNat)) ∧
      (∃ e, hasBody [(asciiOf "transfer-encoding", asciiOf "chunked")] = .error e) := by
  constructor
  · exact ((((c3_framing_decision [(asciiOf "content-length", asciiOf "5")]).2
      (by decide)).2.2 5 (by decide) (by decide)).2.2.2) (by decide) (by decide)
  · exact (c3_framing_decision [(asciiOf "transfer-encoding", asciiOf "chunked")]).1 (by decide)

/-- C4: request-line parsing — with no CRLF, `ParseRequestLine` consumes
zero bytes with no error; with a CRLF-terminated first line it succeeds
iff splitting that line on whitespace runs yields exactly three tokens,
the first is an allowed method and the third is exactly `"HTTP/1.1"`;
on success the stored version is `"1.1"` and the consumed count
includes the CRLF. -/
theorem c4_request_line_parsing (data : ByteStr) :
    (findCRLF data = none → parseRequestLine data = .needMore) ∧
    (∀ idx, findCRLF data = some idx →
      ((∃ rl n, parseRequestLine data = .ok rl n) ↔
        ((fields (data.take idx)).length = 3 ∧
         (fields (data.take idx)).getD 0 [] ∈ allowedMethodsList ∧
         (fields (data.take idx)).getD 2 [] = asciiOf "HTTP/1.1")) ∧
      (∀ rl n, parseRequestLine data = .ok rl n →
        n = idx + 2 ∧ rl.httpVersion = asciiOf "1.1" ∧
        rl.method = (fields (data.take idx)).getD 0 [] ∧
        rl.requestTarget = (fields (data.take idx)).getD 1 [])) := by
  constructor
  · intro hnone
    rw [parseRequestLine, hnone]
  · intro idx hidx
    by_cases h1 : (fields (data.take idx)).length = 3
    · by_cases h2 : (fields (data.take idx)).getD 0 [] ∈ allowedMethodsList
      · by_cases h3 : (fields (data.take idx)).getD 2 [] = asciiOf "HTTP/1.1"
        · have hok : parseRequestLine data =
              .ok { httpVersion := (splitOnByte 47 ((fields (data.take idx)).getD 2 [])).getD 1 [],
                    requestTarget := (fields (data.take idx)).getD 1 [],
                    method := (fields (data.take idx)).getD 0 [] } (idx + 2) := by
            rw [parseRequestLine, hidx]
            simp only []
            rw [if_neg (not_not_intro h1), if_neg (not_not_intro h2),
              if_neg (not_not_intro h3)]
          refine ⟨⟨fun _ => ⟨h1, h2, h3⟩, fun _ => ⟨_, _, hok⟩⟩, fun rl n hrn => ?_⟩
          rw [hok] at hrn
          simp only [RLResult.ok.injEq] at hrn
          obtain ⟨hrl, hn⟩ := hrn
          subst hrl
          refine ⟨hn.symm, ?_, rfl, rfl⟩
          simp only [h3]
          decide
        · have hfail : parseRequestLine data = .failed .unsupportedHTTPVersion := by
            rw [parseRequestLine, hidx]
            simp only []
            rw [if_neg (not_not_intro h1), if_neg (not_not_intro h2), if_pos h3]
          refine ⟨⟨fun hex => ?_, fun hc => absurd hc.2.2 h3⟩, fun rl n hrn => ?_⟩
          · obtain ⟨rl, n, hrn⟩ := hex
            rw [hfail] at hrn
            simp at hrn
          · rw [hfail] at hrn
            simp at hrn
      · have hfail : parseRequestLine data = .failed .unsupportedHTTPMethod := by
          rw [parseRequestLine, hidx]
          simp only []
          rw [if_neg (not_not_intro h1), if_pos h2]
        refine ⟨⟨fun hex => ?_, fun hc => absurd hc.2.1 h2⟩, fun rl n hrn => ?_⟩
        · obtain ⟨rl, n, hrn⟩ := hex
          rw [hfail] at hrn
          simp at hrn
        · rw [hfail] at hrn
          simp at hrn
    · have hfail : parseRequestLine data = .failed .malformedRequestLine := by
        rw [parseRequestLine, hidx]
        simp only []
        rw [if_pos h1]
      refine ⟨⟨fun hex => ?_, fun hc => absurd hc.1 h1⟩, fun rl n hrn => ?_⟩
      · obtain ⟨rl, n, hrn⟩ := hex
        rw [hfail] at hrn
        simp at hrn
      · rw [hfail] at hrn
        simp at hrn

/-- Witness for C4 on `"GET / HTTP/1.1\r\n"`. -/
theorem c4_request_line_parsing_witness :
    (∃ rl n, parseRequestLine (asciiOf "GET / HTTP/1.1\r\n") = .ok rl n) ∧
      (∀ rl n, parseRequestLine (asciiOf "GET / HTTP/1.1\r\n") = .ok rl n →
        n = 14 + 2 ∧ rl.httpVersion = asciiOf "1.1" ∧
        rl.method = (fields ((asciiOf "GET / HTTP/1.1\r\n").take 14)).getD 0 [] ∧
        rl.requestTarget = (fields ((asciiOf "GET / HTTP/1.1\r\n").take 14)).getD 1 []) ∧
      parseRequestLine [71, 69, 84] = .needMore := by
  have hmain := (c4_request_line_parsing (asciiOf "GET / HTTP/1.1\r\n")).2 14 (by decide)
  exact ⟨hmain.1.2 (by decide), hmain.2,
    (c4_request_line_parsing [71, 69, 84]).1 (by decide)⟩

/-- C5: the container stores at most one entry per lowercased field name
(`Set` preserves key uniqueness), and setting an already-present name
comma-appends in arrival order instead of overwriting; in particular
parsing `"X: a\r\nX: b\r\nX: c\r\n\r\n"` yields `Get("x") = "a,b,c"`. -/
theorem c5_duplicate_header_merge (h : Headers) (name value : ByteStr)
    (hnd : (hKeys h).Nodup) :
    (hKeys (hSet h name value)).Nodup ∧
    (∀ old, lookupKey h (toLowerB name) = some old →
        hGet (hSet h name value) name = old ++ [44] ++ value) ∧
    (lookupKey h (toLowerB name) = none → hGet (hSet h name value) name = value) ∧
    hGet (headersParse NewHeaders (asciiOf "X: a\r\nX: b\r\nX: c\r\n\r\n")).1 (asciiOf "x") =
      asciiOf "a,b,c" := by
  have hnodup : (hKeys (hSet h name value)).Nodup := by
    rw [hSet, hKeys_setEntry]
    by_cases hl : lookupKey h (toLowerB name) = none
    · have hnot := (lookupKey_eq_none_iff h (toLowerB name)).1 hl
      simp [hl, List.nodup_append, hnd, hnot]
    · simp [hl, hnd]
  refine ⟨hnodup, ?_, ?_, ?_⟩
  · intro old hold
    rw [hGet, hSet, lookupKey_setEntry_self, hold]
    rfl
  · intro hnone
    rw [hGet, hSet, lookupKey_setEntry_self, hnone]
    rfl
  · have ha : asciiOf "X: a\r\nX: b\r\nX: c\r\n\r\n" =
        [88, 58, 32, 97, 13, 10, 88, 58, 32, 98, 13, 10, 88, 58, 32, 99, 13, 10, 13, 10] := by
      decide
    have he : headersParse NewHeaders (asciiOf "X: a\r\nX: b\r\nX: c\r\n\r\n") =
        ([(asciiOf "x", asciiOf "a,b,c")], 20, true, none) := by
      rw [headersParse, ha, headersParseAux]
      simp [findCRLF, maxHeaderLine, idxOfByte, isTokenBytes, isTokenByte, toLowerB,
        trimSpaceTab, isSpaceTabB, hSet, setEntry, NewHeaders, headersParseAux, asciiOf]
    rw [he]
    decide

/-- Witness for C5 on a container already holding `x ↦ a`. -/
theorem c5_duplicate_header_merge_witness :
    (hKeys (hSet [(asciiOf "x", asciiOf "a")] (asciiOf "X") (asciiOf "b"))).Nodup ∧
      hGet (hSet [(asciiOf "x", asciiOf "a")] (asciiOf "X") (asciiOf "b")) (asciiOf "X") =
        asciiOf "a" ++ [44] ++ asciiOf "b" := by
  have hmain := c5_duplicate_header_merge [(asciiOf "x", asciiOf "a")] (asciiOf "X")
    (asciiOf "b") (by decide)
  exact ⟨hmain.1, hmain.2.1 (asciiOf "a") (by decide)⟩

/-- C6: body-length enforcement for `Content-Length: 5` — a stream ending
before five body bytes accumulate makes `RequestFromReader` return the
unexpected-end-of-stream error; and whenever more than five body bytes
are already accumulated in `ParsingBody`, `Request.parse` fails with the
body-exceeds-Content-Length error. -/
theorem c6_body_length_enforcement :
    (∀ body : ByteStr, body.length < 5 →
      requestFromReader [asciiOf "POST / HTTP/1.1\r\nContent-Length: 5\r\n\r\n" ++ body] =
        .error .unexpectedEOF) ∧
    (∀ (req : Req) (data : ByteStr), req.state = .parsingBody →
      hasBody req.headers = .ok (some 5) → 5 < req.body.length →
      reqParse req data =
        (setErr req .requestBodyExceedsCL, 0, some .requestBodyExceedsCL)) := by
  constructor
  · intro body hlen
    have hP : asciiOf "POST / HTTP/1.1\r\nContent-Length: 5\r\n\r\n" =
        [80, 79, 83, 84, 32, 47, 32, 72, 84, 84, 80, 47, 49, 46, 49, 13, 10, 67, 111, 110, 116,
          101, 110, 116, 45, 76, 101, 110, 103, 116, 104, 58, 32, 53, 13, 10, 13, 10] := by
      decide
    rw [hP, requestFromReader, rfrAux]
    rw [if_neg (show ¬ newRequest.state = .done from by simp [newRequest])]
    rw [if_neg (show ¬ ([80, 79, 83, 84, 32, 47, 32, 72, 84, 84, 80, 47, 49, 46, 49, 13, 10, 67,
      111, 110, 116, 101, 110, 116, 45, 76, 101, 110, 103, 116, 104, 58, 32, 53, 13, 10, 13,
      10] ++ body) = [] from by simp)]
    rw [List.nil_append]
    split
    · rename_i hcon
      exfalso
      obtain ⟨-, hgt⟩ := hcon
      rw [List.length_append] at hgt
      norm_num [maxStartLine] at hgt
      omega
    · rw [reqParse_cl5_shortBody body hlen]
      simp only []
      rw [rfrAux]
      simp
  · intro req data hst hb hlen
    rw [reqParse, reqParseAux, hst]
    simp only []
    rw [hb]
    simp only []
    rw [if_pos hlen]

/-- Witness for C6: a three-byte body then EOF, and a `ParsingBody`
request with six accumulated bytes against `Content-Length: 5`. -/
theorem c6_body_length_enforcement_witness :
    requestFromReader [asciiOf "POST / HTTP/1.1\r\nContent-Length: 5\r\n\r\n" ++ asciiOf "abc"] =
      .error .unexpectedEOF ∧
      reqParse
        { requestLine := none, headers := [(asciiOf "content-length", asciiOf "5")],
          body := asciiOf "abcdef", state := .parsingBody, parseErr := none } [] =
        (setErr
          { requestLine := none, headers := [(asciiOf "content-length", asciiOf "5")],
            body := asciiOf "abcdef", state := .parsingBody, parseErr := none }
          .requestBodyExceedsCL, 0, some .requestBodyExceedsCL) := by
  constructor
  · exact c6_body_length_enforcement.1 (asciiOf "abc") (by decide)
  · exact c6_body_length_enforcement.2 _ [] rfl (by rfl) (by decide)

/-- C7 counterexample: with headers built by `Set("Transfer-Encoding",
"Chunked")` and `Set("Content-Length", "5")` and no writer-level
headers, the raw Transfer-Encoding value's comma token list does NOT
contain `"chunked"` under the case-sensitive comparison, yet
`WriteHeaders` deletes Content-Length and serializes only the
Transfer-Encoding line — refuting the claimed "if and only if". -/
theorem c7_counterexample :
    tokenListContains
        (hGet (hSet (hSet NewHeaders (asciiOf "Transfer-Encoding") (asciiOf "Chunked"))
            (asciiOf "Content-Length") (asciiOf "5"))
          (asciiOf "transfer-encoding"))
        (asciiOf "chunked") = false ∧
      writeHeadersBytes none
        (some (hSet (hSet NewHeaders (asciiOf "Transfer-Encoding") (asciiOf "Chunked"))
          (asciiOf "Content-Length") (asciiOf "5"))) =
        asciiOf "Transfer-Encoding: Chunked\r\n\r\n" ∧
      lookupKey
        (effectiveHeaders none
          (hSet (hSet NewHeaders (asciiOf "Transfer-Encoding") (asciiOf "Chunked"))
            (asciiOf "Content-Length") (asciiOf "5")))
        (asciiOf "content-length") = none := by
  refine ⟨by decide, by decide, by decide⟩

/-- C7 amended: after the writer-level override overlay, Content-Length
is deleted (absent from the map and from the emitted key list) if and
only if the comma-separated, whitespace-trimmed token list of the
LOWERCASED effective Transfer-Encoding value contains `"chunked"` — a
case-insensitive token match; otherwise the header set (Content-Length
included) is serialized unchanged. -/
theorem c7_amended_chunked_case_insensitive (wh h : Headers) :
    writeHeadersBytes (some wh) (some h) =
      renderHeaderBlock (effectiveHeaders (some wh) h) ∧
    (tokenListContains (toLowerB (hGet (overlayHeaders wh h) (asciiOf "transfer-encoding")))
        (asciiOf "chunked") = true →
      lookupKey (effectiveHeaders (some wh) h) (asciiOf "content-length") = none ∧
        asciiOf "content-length" ∉ sortKeys (hKeys (effectiveHeaders (some wh) h))) ∧
    (tokenListContains (toLowerB (hGet (overlayHeaders wh h) (asciiOf "transfer-encoding")))
        (asciiOf "chunked") = false →
      effectiveHeaders (some wh) h = overlayHeaders wh h) := by
  refine ⟨rfl, ?_, ?_⟩
  · intro hc
    have heff : effectiveHeaders (some wh) h =
        hDelete (overlayHeaders wh h) (asciiOf "content-length") := by
      rw [effectiveHeaders]
      simp only [hc, if_true]
    rw [heff]
    constructor
    · have := lookupKey_hDelete_self (overlayHeaders wh h) (asciiOf "content-length")
      simpa [show toLowerB (asciiOf "content-length") = asciiOf "content-length" from by decide]
        using this
    · rw [mem_sortKeys]
      have := not_mem_hKeys_hDelete (overlayHeaders wh h) (asciiOf "content-length")
      simpa [show toLowerB (asciiOf "content-length") = asciiOf "content-length" from by decide]
        using this
  · intro hc
    rw [effectiveHeaders]
    simp only [hc]
    rfl

/-- Witness for the amended C7 at the counterexample input. -/
theorem c7_amended_chunked_case_insensitive_witness :
    lookupKey
        (effectiveHeaders (some NewHeaders)
          (hSet (hSet NewHeaders (asciiOf "Transfer-Encoding") (asciiOf "Chunked"))
            (asciiOf "Content-Length") (asciiOf "5")))
        (asciiOf "content-length") = none ∧
      effectiveHeaders (some NewHeaders)
          (hSet NewHeaders (asciiOf "Content-Length") (asciiOf "5")) =
        overlayHeaders NewHeaders (hSet NewHeaders (asciiOf "Content-Length") (asciiOf "5")) := by
  constructor
  · exact ((c7_amended_chunked_case_insensitive NewHeaders
      (hSet (hSet NewHeaders (asciiOf "Transfer-Encoding") (asciiOf "Chunked"))
        (asciiOf "Content-Length") (asciiOf "5"))).2.1 (by decide)).1
  · exact (c7_amended_chunked_case_insensitive NewHeaders
      (hSet NewHeaders (asciiOf "Content-Length") (asciiOf "5"))).2.2 (by decide)

/-- C8 counterexample: on `"a: b\r\nc"` — one complete header line and an
unterminated remainder below the cap — `Headers.Parse` returns 6 bytes
consumed (the complete line), not zero, with `done = false` and no
error; the claim's "zero bytes consumed" is false. -/
theorem c8_counterexample :
    (headersParse NewHeaders (asciiOf "a: b\r\nc")).2 = (6, false, none) ∧
      (headersParse NewHeaders (asciiOf "a: b\r\nc")).2.1 ≠ 0 := by
  have ha : asciiOf "a: b\r\nc" = [97, 58, 32, 98, 13, 10, 99] := by decide
  have he : headersParse NewHeaders (asciiOf "a: b\r\nc") =
      ([(asciiOf "a", asciiOf "b")], 6, false, none) := by
    rw [headersParse, ha, headersParseAux]
    simp [findCRLF, maxHeaderLine, idxOfByte, isTokenBytes, isTokenByte, toLowerB, trimSpaceTab,
      isSpaceTabB, hSet, setEntry, NewHeaders, headersParseAux, asciiOf]
  rw [he]
  simp

/-- C8 amended: when no CRLF is found in the unconsumed portion and that
remainder does not exceed the 8 KiB per-line cap, the header-parse loop
suspends with `done = false` and no error, reporting the bytes already
consumed by the complete lines of the same call (its running offset) —
zero only when no complete line preceded the incomplete remainder. -/
theorem c8_amended_suspension_returns_offset (h : Headers) (rest : ByteStr) (off : Nat)
    (hcr : findCRLF rest = none) (hlen : rest.length ≤ maxHeaderLine) :
    headersParseAux h rest off = (h, off, false, none) := by
  rw [headersParseAux, hcr]
  simp [Nat.not_lt.2 hlen]

/-- Witness for the amended C8 at the counterexample's suspension point. -/
theorem c8_amended_suspension_returns_offset_witness :
    headersParseAux [(asciiOf "a", asciiOf "b")] [99] 6 =
      ([(asciiOf "a", asciiOf "b")], 6, false, none) :=
  c8_amended_suspension_returns_offset _ _ _ (by decide) (by decide)

/-- C9 counterexample: nine 1024-byte reads of `A`s (total 9216 > 8192
buffered before any start-line CRLF) make `RequestFromReader` fail with
`ErrMalformedRequestLine` — not with the line-too-long error the claim
names. -/
theorem c9_counterexample :
    requestFromReader (List.replicate 9 (List.replicate 1024 65)) =
      .error .malformedRequestLine ∧
      (Err.malformedRequestLine ≠ Err.headerLineTooLong) := by
  refine ⟨?_, by decide⟩
  rw [requestFromReader]
  show rfrAux newRequest (List.replicate 0 65) (List.replicate 9 (List.replicate 1024 65)) =
    .error .malformedRequestLine
  rw [show (List.replicate 9 (List.replicate 1024 (65 : Nat))) =
    List.replicate 1024 65 :: List.replicate 1024 65 :: List.replicate 1024 65 ::
    List.replicate 1024 65 :: List.replicate 1024 65 :: List.replicate 1024 65 ::
    List.replicate 1024 65 :: List.replicate 1024 65 :: [List.replicate 1024 65] from rfl]
  rw [c9_step 0 _ (by norm_num [maxStartLine])]
  norm_num
  rw [c9_step 1024 _ (by norm_num [maxStartLine])]
  norm_num
  rw [c9_step 2048 _ (by norm_num [maxStartLine])]
  norm_num
  rw [c9_step 3072 _ (by norm_num [maxStartLine])]
  norm_num
  rw [c9_step 4096 _ (by norm_num [maxStartLine])]
  norm_num
  rw [c9_step 5120 _ (by norm_num [maxStartLine])]
  norm_num
  rw [c9_step 6144 _ (by norm_num [maxStartLine])]
  norm_num
  rw [c9_step 7168 _ (by norm_num [maxStartLine])]
  norm_num
  exact c9_final []

/-- C9 amended: a header line longer than 8 KiB fails `Headers.Parse`
with the line-too-long error whether or not its CRLF has arrived, at
any point of the parse loop; and before the start-line is parsed, a
read pushing the buffered size above 8 KiB makes the reader loop fail
with the malformed-start-line error (`ErrMalformedRequestLine`) rather
than suspending. -/
theorem c9_amended_line_caps :
    (∀ (h : Headers) (rest : ByteStr) (off : Nat), findCRLF rest = none →
      maxHeaderLine < rest.length →
      headersParseAux h rest off = (h, 0, false, some .headerLineTooLong)) ∧
    (∀ (h : Headers) (rest : ByteStr) (off idx : Nat), findCRLF rest = some idx →
      maxHeaderLine < idx →
      headersParseAux h rest off = (h, 0, false, some .headerLineTooLong)) ∧
    (∀ (req : Req) (buf c : ByteStr) (rest : List ByteStr), req.state = .initialized →
      c ≠ [] → maxStartLine < (buf ++ c).length →
      rfrAux req buf (c :: rest) = .error .malformedRequestLine) := by
  refine ⟨?_, ?_, ?_⟩
  · intro h rest off hcr hlen
    rw [headersParseAux, hcr, if_pos hlen]
  · intro h rest off idx hcr hlen
    rw [headersParseAux, hcr]
    simp only []
    rw [if_pos hlen]
  · intro req buf c rest hst hc hlen
    rw [rfrAux]
    rw [if_neg (show ¬ req.state = .done from by rw [hst]; simp)]
    rw [if_neg hc]
    rw [if_pos ⟨hst, hlen⟩]

/-- Witness for the amended C9: an 8193-byte unterminated line, the same
line terminated, and an 8193-byte first read before the start-line. -/
theorem c9_amended_line_caps_witness :
    headersParseAux NewHeaders (List.replicate 8193 65) 3 =
      (NewHeaders, 0, false, some .headerLineTooLong) ∧
      headersParseAux NewHeaders (List.replicate 8193 65 ++ [13, 10]) 0 =
        (NewHeaders, 0, false, some .headerLineTooLong) ∧
      rfrAux newRequest [] [List.replicate 8193 65] = .error .malformedRequestLine := by
  refine ⟨?_, ?_, ?_⟩
  · exact (c9_amended_line_caps).1 NewHeaders _ 3 (findCRLF_replicate65 8193)
      (by rw [List.length_replicate]; norm_num [maxHeaderLine])
  · exact (c9_amended_line_caps).2.1 NewHeaders _ 0 8193
      (findCRLF_replicate65_append 8193 []) (by norm_num [maxHeaderLine])
  · exact (c9_amended_line_caps).2.2 newRequest [] _ [] rfl
      (List.ne_nil_of_length_pos (by rw [List.length_replicate]; norm_num))
      (by rw [List.nil_append, List.length_replicate]; norm_num [maxStartLine])

/-- C10: `Headers.Parse` is not atomic on error — on
`"a: b\r\n: x\r\n"` (a valid line, then a malformed line with an empty
field name) it returns zero bytes consumed together with the
malformed-line error, yet the container already stores `a ↦ b` from the
earlier valid line of that same call. -/
theorem c10_parse_mutates_before_error :
    headersParse NewHeaders (asciiOf "a: b\r\n: x\r\n") =
      ([(asciiOf "a", asciiOf "b")], 0, false, some Err.malformedHeaderLine) ∧
      hGet (headersParse NewHeaders (asciiOf "a: b\r\n: x\r\n")).1 (asciiOf "a") =
        asciiOf "b" := by
  have ha : asciiOf "a: b\r\n: x\r\n" = [97, 58, 32, 98, 13, 10, 58, 32, 120, 13, 10] := by
    decide
  have he : headersParse NewHeaders (asciiOf "a: b\r\n: x\r\n") =
      ([(asciiOf "a", asciiOf "b")], 0, false, some Err.malformedHeaderLine) := by
    rw [headersParse, ha, headersParseAux]
    simp [findCRLF, maxHeaderLine, idxOfByte, isTokenBytes, isTokenByte, toLowerB, trimSpaceTab,
      isSpaceTabB, hSet, setEntry, NewHeaders, headersParseAux, asciiOf]
  refine ⟨he, ?_⟩
  rw [he]
  decide
